import Mathlib

/-!
Verification of the `BacklogClient` wrapper (src/backlog-client.ts).

The client is embedded shallowly:

* remote responses become structures whose possibly-absent fields are
  `Option String`;
* the remote service is a pure function (offset to page of issues for
  pagination, attempt index to outcome for the retry helper), so that a
  whole execution is a value we can compute with;
* the `while (hasMoreIssues)` pagination loop and the
  `for (attempt = 0; attempt <= maxRetries; attempt++)` retry loop are
  written with explicit fuel; the pagination loop returns `none` on fuel
  exhaustion, the retry loop is entered with fuel `maxRetries + 1`, which
  makes its fuel-exhaustion case exactly the `attempt > maxRetries` exit
  of the source loop;
* both loops also return a trace (the offsets requested, respectively the
  attempts made and the waits performed) so that claims about the number
  of requests, attempts and delays are statable.
-/

namespace BacklogClient

/-- Remote project payload as returned by the underlying API client. -/
structure RemoteProject where
  id : Nat
  projectKey : String
  name : String
  textFormattingRule : String
deriving DecidableEq

/-- Validated project projection (`BacklogProject` in types.ts). -/
structure BacklogProject where
  id : Nat
  projectKey : String
  name : String
  textFormattingRule : String
deriving DecidableEq

/-- Remote issue payload; `description` may be absent (`undefined`). -/
structure RemoteIssue where
  id : Nat
  issueKey : String
  summary : String
  description : Option String
deriving DecidableEq

/-- Issue projection (`BacklogIssue` in types.ts): description always a string. -/
structure BacklogIssue where
  id : Nat
  issueKey : String
  summary : String
  description : String
deriving DecidableEq

/-- Remote wiki payload; `content` may be absent. -/
structure RemoteWiki where
  id : Nat
  name : String
  content : Option String
deriving DecidableEq

/-- Wiki projection (`BacklogWiki` in types.ts): content always a string. -/
structure BacklogWiki where
  id : Nat
  name : String
  content : String
deriving DecidableEq

/-- An error thrown by an API call; `message` may be absent (a thrown
value without a `message` property). -/
structure ApiError where
  message : Option String
deriving DecidableEq

/-- JavaScript truthiness of `error.message`: present and non-empty. -/
def messageTruthy (e : ApiError) : Bool :=
  match e.message with
  | none => false
  | some s => s != ""

/-- Test whether `pat` is a prefix of `s` (on character lists). -/
def charsPrefixEq : List Char → List Char → Bool
  | [], _ => true
  | _ :: _, [] => false
  | a :: as, b :: bs => a == b && charsPrefixEq as bs

/-- Test whether `pat` occurs as a contiguous run inside `s`. -/
def charsContain (pat : List Char) : List Char → Bool
  | [] => charsPrefixEq pat []
  | c :: tail => charsPrefixEq pat (c :: tail) || charsContain pat tail

/-- Substring containment, the embedding of `String.prototype.includes`. -/
def containsSubstr (s pat : String) : Bool :=
  charsContain pat.data s.data

/-- The rate-limit test of `retryApiCall`:
`error.message && error.message.includes('Too Many Requests')`. -/
def isRateLimitError (e : ApiError) : Bool :=
  match e.message with
  | none => false
  | some s => s != "" && containsSubstr s "Too Many Requests"

/-- The issue mapping `(issue) => ({id, issueKey, summary, description: issue.description || ''})`. -/
def mapIssue (r : RemoteIssue) : BacklogIssue :=
  { id := r.id, issueKey := r.issueKey, summary := r.summary,
    description := r.description.getD "" }

/-- The wiki mapping `(wiki) => ({id, name, content: wiki.content || ''})`. -/
def mapWiki (r : RemoteWiki) : BacklogWiki :=
  { id := r.id, name := r.name, content := r.content.getD "" }

/-- Embedding of `getProject`: given the project the remote returns for
`projectKey`, validate the formatting rule and project the record, or
throw. -/
def getProject (projectKey : String) (project : RemoteProject) :
    Except ApiError BacklogProject :=
  if project.textFormattingRule != "markdown" then
    Except.error ⟨some ("Project " ++ projectKey ++
      " does not use markdown formatting (uses: " ++
      project.textFormattingRule ++ ")")⟩
  else
    Except.ok { id := project.id, projectKey := project.projectKey,
                name := project.name,
                textFormattingRule := project.textFormattingRule }

/-- The `while (hasMoreIssues)` loop of `getIssues`. `fetch` gives the
page the remote returns at a given offset; `reqs` records the offsets
requested so far. Fuel exhaustion (an execution longer than the given
bound) yields `none`. -/
def getIssuesAux (fetch : Nat → List RemoteIssue) :
    Nat → Nat → List BacklogIssue → List Nat →
    Option (List BacklogIssue × List Nat)
  | 0, _, _, _ => none
  | fuel + 1, offset, allIssues, reqs =>
    let issues := fetch offset
    if issues.length = 0 then
      some (allIssues, reqs ++ [offset])
    else
      let allIssues := allIssues ++ issues.map mapIssue
      if issues.length < 100 then
        some (allIssues, reqs ++ [offset])
      else
        getIssuesAux fetch fuel (offset + 100) allIssues (reqs ++ [offset])

/-- Embedding of `getIssues`: paginate from offset 0 with page size 100,
returning the accumulated issues and the offsets requested. -/
def getIssues (fetch : Nat → List RemoteIssue) (fuel : Nat) :
    Option (List BacklogIssue × List Nat) :=
  getIssuesAux fetch fuel 0 [] []

/-- Observable events of the retry helper: an attempt of the wrapped
call, or a delay of the given number of milliseconds. -/
inductive RetryEvent where
  | attempt
  | wait (ms : Nat)
deriving DecidableEq

/-- The `for (attempt = 0; attempt <= maxRetries; attempt++)` loop of
`retryApiCall`. `apiCall n` is the outcome of the call on attempt `n`.
The loop is entered with fuel `maxRetries + 1`, so fuel runs out exactly
when `attempt = maxRetries + 1`, the loop exit of the source, where
`lastError` is thrown. -/
def retryLoop (apiCall : Nat → Except ApiError α) :
    Nat → Nat → Option ApiError → List RetryEvent →
    Except ApiError α × List RetryEvent
  | 0, _, lastError, evts => (Except.error (lastError.getD ⟨none⟩), evts)
  | fuel + 1, attempt, _, evts =>
    match apiCall attempt with
    | Except.ok v => (Except.ok v, evts ++ [RetryEvent.attempt])
    | Except.error e =>
      if isRateLimitError e then
        retryLoop apiCall fuel (attempt + 1) (some e)
          (evts ++ [RetryEvent.attempt, RetryEvent.wait 15000])
      else
        (Except.error e, evts ++ [RetryEvent.attempt])

/-- Embedding of `retryApiCall` (the source default is `maxRetries = 3`). -/
def retryApiCall (apiCall : Nat → Except ApiError α) (maxRetries : Nat) :
    Except ApiError α × List RetryEvent :=
  retryLoop apiCall (maxRetries + 1) 0 none []

/-- Embedding of `getIssue`: each attempt fetches the issue and maps it. -/
def getIssue (call : Nat → Except ApiError RemoteIssue) (maxRetries : Nat) :
    Except ApiError BacklogIssue × List RetryEvent :=
  retryApiCall (fun n => (call n).map mapIssue) maxRetries

/-- Embedding of `getWikis`: a single request, every wiki mapped. -/
def getWikis (wikis : List RemoteWiki) : List BacklogWiki :=
  wikis.map mapWiki

/-- Embedding of `getWiki`: each attempt fetches the wiki and maps it. -/
def getWiki (call : Nat → Except ApiError RemoteWiki) (maxRetries : Nat) :
    Except ApiError BacklogWiki × List RetryEvent :=
  retryApiCall (fun n => (call n).map mapWiki) maxRetries

deriving instance DecidableEq for Except

/-! Step lemmas for the retry loop. -/

theorem retryLoop_ok (apiCall : Nat → Except ApiError α) (fuel attempt : Nat)
    (lastError : Option ApiError) (evts : List RetryEvent) (v : α)
    (hc : apiCall attempt = Except.ok v) :
    retryLoop apiCall (fuel + 1) attempt lastError evts =
      (Except.ok v, evts ++ [RetryEvent.attempt]) := by
  simp [retryLoop, hc]

theorem retryLoop_rateLimited (apiCall : Nat → Except ApiError α) (fuel attempt : Nat)
    (lastError : Option ApiError) (evts : List RetryEvent) (e : ApiError)
    (hc : apiCall attempt = Except.error e) (hr : isRateLimitError e = true) :
    retryLoop apiCall (fuel + 1) attempt lastError evts =
      retryLoop apiCall fuel (attempt + 1) (some e)
        (evts ++ [RetryEvent.attempt, RetryEvent.wait 15000]) := by
  simp [retryLoop, hc, hr]

theorem retryLoop_otherError (apiCall : Nat → Except ApiError α) (fuel attempt : Nat)
    (lastError : Option ApiError) (evts : List RetryEvent) (e : ApiError)
    (hc : apiCall attempt = Except.error e) (hr : isRateLimitError e = false) :
    retryLoop apiCall (fuel + 1) attempt lastError evts =
      (Except.error e, evts ++ [RetryEvent.attempt]) := by
  simp [retryLoop, hc, hr]

theorem messageTruthy_false_not_rateLimit (e : ApiError)
    (h : messageTruthy e = false) : isRateLimitError e = false := by
  cases e with
  | mk message =>
    cases message with
    | none => rfl
    | some s =>
      simp only [messageTruthy] at h
      simp [isRateLimitError, h]

/-- C2: a call that fails with a rate-limit error on attempts 0 and 1 and
succeeds on attempt 2 produces, with the default `maxRetries = 3`, the
trace attempt, wait 15000, attempt, wait 15000, attempt, and the success
value: two 15000ms delays, one before each retry, and exactly 3 attempts. -/
theorem retry_twoRateLimits_thenSuccess (call : Nat → Except ApiError α)
    (v : α) (e0 e1 : ApiError)
    (h0 : call 0 = Except.error e0) (h1 : call 1 = Except.error e1)
    (h2 : call 2 = Except.ok v)
    (r0 : isRateLimitError e0 = true) (r1 : isRateLimitError e1 = true) :
    retryApiCall call 3 =
      (Except.ok v,
       [RetryEvent.attempt, RetryEvent.wait 15000,
        RetryEvent.attempt, RetryEvent.wait 15000, RetryEvent.attempt]) := by
  have s0 : retryLoop call (3 + 1) 0 none [] =
      retryLoop call (2 + 1) 1 (some e0)
        [RetryEvent.attempt, RetryEvent.wait 15000] := by
    rw [retryLoop_rateLimited call 3 0 none [] e0 h0 r0]
    rfl
  have s1 : retryLoop call (2 + 1) 1 (some e0)
        [RetryEvent.attempt, RetryEvent.wait 15000] =
      retryLoop call (1 + 1) 2 (some e1)
        [RetryEvent.attempt, RetryEvent.wait 15000,
         RetryEvent.attempt, RetryEvent.wait 15000] := by
    rw [retryLoop_rateLimited call 2 1 (some e0)
      [RetryEvent.attempt, RetryEvent.wait 15000] e1 h1 r1]
    rfl
  have s2 : retryLoop call (1 + 1) 2 (some e1)
        [RetryEvent.attempt, RetryEvent.wait 15000,
         RetryEvent.attempt, RetryEvent.wait 15000] =
      (Except.ok v,
       [RetryEvent.attempt, RetryEvent.wait 15000,
        RetryEvent.attempt, RetryEvent.wait 15000, RetryEvent.attempt]) := by
    rw [retryLoop_ok call 1 2 (some e1)
      [RetryEvent.attempt, RetryEvent.wait 15000,
       RetryEvent.attempt, RetryEvent.wait 15000] v h2]
    rfl
  exact (s0.trans s1).trans s2

/-- C2 witness at a concrete call: rate-limited twice, then the value 7. -/
theorem retry_twoRateLimits_thenSuccess_witness :
    retryApiCall
        (fun n => if n < 2
          then (Except.error ⟨some "Too Many Requests"⟩ : Except ApiError Nat)
          else Except.ok 7) 3 =
      (Except.ok 7,
       [RetryEvent.attempt, RetryEvent.wait 15000,
        RetryEvent.attempt, RetryEvent.wait 15000, RetryEvent.attempt]) :=
  retry_twoRateLimits_thenSuccess
    (fun n => if n < 2
      then (Except.error ⟨some "Too Many Requests"⟩ : Except ApiError Nat)
      else Except.ok 7)
    7 ⟨some "Too Many Requests"⟩ ⟨some "Too Many Requests"⟩
    rfl rfl rfl (by decide) (by decide)

/-- C5: a call whose first failure is not a rate-limit error is propagated
at once: one attempt, no delay, no retry. -/
theorem retry_otherError_propagatesImmediately (call : Nat → Except ApiError α)
    (e : ApiError) (h0 : call 0 = Except.error e)
    (hr : isRateLimitError e = false) :
    retryApiCall call 3 = (Except.error e, [RetryEvent.attempt]) :=
  retryLoop_otherError call 3 0 none [] e h0 hr

/-- C5 witness: a concrete non-rate-limit failure. -/
theorem retry_otherError_propagatesImmediately_witness :
    retryApiCall (fun _ => (Except.error ⟨some "Internal Server Error"⟩ :
        Except ApiError Nat)) 3 =
      (Except.error ⟨some "Internal Server Error"⟩, [RetryEvent.attempt]) :=
  retry_otherError_propagatesImmediately
    (fun _ => (Except.error ⟨some "Internal Server Error"⟩ : Except ApiError Nat))
    ⟨some "Internal Server Error"⟩ rfl (by decide)

/-- C10: a failure whose `message` is not truthy (absent or empty) is
treated as a non-rate-limit error and propagated at once, with no delay
and no retry. -/
theorem retry_untruthyMessage_propagatesImmediately (call : Nat → Except ApiError α)
    (e : ApiError) (h0 : call 0 = Except.error e)
    (hm : messageTruthy e = false) :
    retryApiCall call 3 = (Except.error e, [RetryEvent.attempt]) :=
  retryLoop_otherError call 3 0 none [] e h0
    (messageTruthy_false_not_rateLimit e hm)

/-- C10 witness: a concrete failure carrying no `message` at all. -/
theorem retry_untruthyMessage_propagatesImmediately_witness :
    retryApiCall (fun _ => (Except.error ⟨none⟩ : Except ApiError Nat)) 3 =
      (Except.error ⟨none⟩, [RetryEvent.attempt]) :=
  retry_untruthyMessage_propagatesImmediately
    (fun _ => (Except.error ⟨none⟩ : Except ApiError Nat)) ⟨none⟩ rfl rfl

/-- C6: a call that fails with a rate-limit error on every attempt makes,
with the default `maxRetries = 3`, exactly 4 attempts and then propagates
the last observed error. -/
theorem retry_rateLimit_exhaustsAttempts (call : Nat → Except ApiError α)
    (e0 e1 e2 e3 : ApiError)
    (h0 : call 0 = Except.error e0) (h1 : call 1 = Except.error e1)
    (h2 : call 2 = Except.error e2) (h3 : call 3 = Except.error e3)
    (r0 : isRateLimitError e0 = true) (r1 : isRateLimitError e1 = true)
    (r2 : isRateLimitError e2 = true) (r3 : isRateLimitError e3 = true) :
    (retryApiCall call 3).1 = Except.error e3 ∧
      (retryApiCall call 3).2.count RetryEvent.attempt = 4 := by
  have s0 : retryLoop call (3 + 1) 0 none [] =
      retryLoop call (2 + 1) 1 (some e0)
        [RetryEvent.attempt, RetryEvent.wait 15000] := by
    rw [retryLoop_rateLimited call 3 0 none [] e0 h0 r0]
    rfl
  have s1 : retryLoop call (2 + 1) 1 (some e0)
        [RetryEvent.attempt, RetryEvent.wait 15000] =
      retryLoop call (1 + 1) 2 (some e1)
        [RetryEvent.attempt, RetryEvent.wait 15000,
         RetryEvent.attempt, RetryEvent.wait 15000] := by
    rw [retryLoop_rateLimited call 2 1 (some e0)
      [RetryEvent.attempt, RetryEvent.wait 15000] e1 h1 r1]
    rfl
  have s2 : retryLoop call (1 + 1) 2 (some e1)
        [RetryEvent.attempt, RetryEvent.wait 15000,
         RetryEvent.attempt, RetryEvent.wait 15000] =
      retryLoop call (0 + 1) 3 (some e2)
        [RetryEvent.attempt, RetryEvent.wait 15000,
         RetryEvent.attempt, RetryEvent.wait 15000,
         RetryEvent.attempt, RetryEvent.wait 15000] := by
    rw [retryLoop_rateLimited call 1 2 (some e1)
      [RetryEvent.attempt, RetryEvent.wait 15000,
       RetryEvent.attempt, RetryEvent.wait 15000] e2 h2 r2]
    rfl
  have s3 : retryLoop call (0 + 1) 3 (some e2)
        [RetryEvent.attempt, RetryEvent.wait 15000,
         RetryEvent.attempt, RetryEvent.wait 15000,
         RetryEvent.attempt, RetryEvent.wait 15000] =
      retryLoop call 0 4 (some e3)
        [RetryEvent.attempt, RetryEvent.wait 15000,
         RetryEvent.attempt, RetryEvent.wait 15000,
         RetryEvent.attempt, RetryEvent.wait 15000,
         RetryEvent.attempt, RetryEvent.wait 15000] := by
    rw [retryLoop_rateLimited call 0 3 (some e2)
      [RetryEvent.attempt, RetryEvent.wait 15000,
       RetryEvent.attempt, RetryEvent.wait 15000,
       RetryEvent.attempt, RetryEvent.wait 15000] e3 h3 r3]
    rfl
  have hall : retryApiCall call 3 =
      (Except.error e3,
       [RetryEvent.attempt, RetryEvent.wait 15000,
        RetryEvent.attempt, RetryEvent.wait 15000,
        RetryEvent.attempt, RetryEvent.wait 15000,
        RetryEvent.attempt, RetryEvent.wait 15000]) :=
    (((s0.trans s1).trans s2).trans s3).trans rfl
  rw [hall]
  exact ⟨rfl, rfl⟩

/-- C6 witness: a concrete call that is rate limited on every attempt. -/
theorem retry_rateLimit_exhaustsAttempts_witness :
    (retryApiCall (fun _ => (Except.error ⟨some "HTTP 429 Too Many Requests"⟩ :
        Except ApiError Nat)) 3).1 =
      Except.error ⟨some "HTTP 429 Too Many Requests"⟩ ∧
    (retryApiCall (fun _ => (Except.error ⟨some "HTTP 429 Too Many Requests"⟩ :
        Except ApiError Nat)) 3).2.count RetryEvent.attempt = 4 :=
  retry_rateLimit_exhaustsAttempts
    (fun _ => (Except.error ⟨some "HTTP 429 Too Many Requests"⟩ : Except ApiError Nat))
    ⟨some "HTTP 429 Too Many Requests"⟩ ⟨some "HTTP 429 Too Many Requests"⟩
    ⟨some "HTTP 429 Too Many Requests"⟩ ⟨some "HTTP 429 Too Many Requests"⟩
    rfl rfl rfl rfl (by decide) (by decide) (by decide) (by decide)

/-- C3: at the failing input (rate-limit failure on all 4 attempts,
default `maxRetries = 3`) the loop performs a 15000ms wait after the
final attempt and only then fails: the trace ends in a wait that is not
followed by an attempt, against the claimed direct transition to Failed. -/
theorem retry_waitsAfterFinalAttempt :
    retryApiCall (fun _ => (Except.error ⟨some "Too Many Requests"⟩ :
        Except ApiError Nat)) 3 =
      (Except.error ⟨some "Too Many Requests"⟩,
       [RetryEvent.attempt, RetryEvent.wait 15000,
        RetryEvent.attempt, RetryEvent.wait 15000,
        RetryEvent.attempt, RetryEvent.wait 15000,
        RetryEvent.attempt, RetryEvent.wait 15000]) := by
  decide

/-- C4: getProject fails on every project whose formatting rule is not
"markdown", and returns the four-field projection on every project whose
rule is "markdown". -/
theorem getProject_validatesMarkdown (projectKey : String) (p : RemoteProject) :
    (p.textFormattingRule ≠ "markdown" →
      ∃ e, getProject projectKey p = Except.error e) ∧
    (p.textFormattingRule = "markdown" →
      getProject projectKey p =
        Except.ok ⟨p.id, p.projectKey, p.name, p.textFormattingRule⟩) := by
  constructor
  · intro h
    exact ⟨⟨some ("Project " ++ projectKey ++
        " does not use markdown formatting (uses: " ++
        p.textFormattingRule ++ ")")⟩, by simp [getProject, h]⟩
  · intro h
    simp [getProject, h]

/-- C4 witness: one concrete non-markdown project and one markdown one. -/
theorem getProject_validatesMarkdown_witness :
    (∃ e, getProject "PRJ" ⟨1, "PRJ", "Legacy", "backlog"⟩ = Except.error e) ∧
    getProject "PRJ" ⟨2, "PRJ", "Modern", "markdown"⟩ =
      Except.ok ⟨2, "PRJ", "Modern", "markdown"⟩ :=
  ⟨(getProject_validatesMarkdown "PRJ" ⟨1, "PRJ", "Legacy", "backlog"⟩).1
      (by decide),
   (getProject_validatesMarkdown "PRJ" ⟨2, "PRJ", "Modern", "markdown"⟩).2 rfl⟩

/-! Pagination lemmas. -/

theorem rangeMap_shift {β : Type} (h : Nat → β) (n : Nat) :
    (List.range (n + 1)).map h = h 0 :: (List.range n).map (fun i => h (i + 1)) := by
  rw [List.range_succ_eq_map, List.map_cons, List.map_map]
  congr 1

theorem rangeMap_flatten_shift {β : Type} (g : Nat → List β) (n : Nat) :
    ((List.range (n + 1)).map g).flatten =
      g 0 ++ ((List.range n).map (fun i => g (i + 1))).flatten := by
  rw [rangeMap_shift g n, List.flatten_cons]

theorem getIssuesAux_pages (fetch : Nat → List RemoteIssue) :
    ∀ (k fuel offset : Nat) (acc : List BacklogIssue) (reqs : List Nat),
      (∀ i, i < k → (fetch (offset + 100 * i)).length = 100) →
      (fetch (offset + 100 * k)).length < 100 →
      k < fuel →
      getIssuesAux fetch fuel offset acc reqs =
        some (acc ++ ((List.range (k + 1)).map
                (fun i => (fetch (offset + 100 * i)).map mapIssue)).flatten,
              reqs ++ (List.range (k + 1)).map (fun i => offset + 100 * i)) := by
  intro k
  induction k with
  | zero =>
    intro fuel offset acc reqs _ hlast hfuel
    obtain ⟨f, rfl⟩ : ∃ f, fuel = f + 1 := ⟨fuel - 1, by omega⟩
    simp only [Nat.mul_zero, Nat.add_zero] at hlast
    by_cases h0 : (fetch offset).length = 0
    · have hnil : fetch offset = [] := List.length_eq_zero.mp h0
      simp [getIssuesAux, hnil, List.range_succ]
    · simp [getIssuesAux, h0, hlast, List.range_succ]
  | succ k ih =>
    intro fuel offset acc reqs hfull hlast hfuel
    obtain ⟨f, rfl⟩ : ∃ f, fuel = f + 1 := ⟨fuel - 1, by omega⟩
    have h0 : (fetch offset).length = 100 := by
      have := hfull 0 (Nat.succ_pos k)
      simpa using this
    have harith : ∀ i : Nat, offset + 100 * (i + 1) = offset + 100 + 100 * i := by
      intro i; ring
    have hfull2 : ∀ i, i < k → (fetch (offset + 100 + 100 * i)).length = 100 := by
      intro i hi
      have := hfull (i + 1) (by omega)
      rwa [harith i] at this
    have hlast2 : (fetch (offset + 100 + 100 * k)).length < 100 := by
      rwa [harith k] at hlast
    simp only [getIssuesAux]
    rw [if_neg (by omega), if_neg (by omega)]
    rw [ih f (offset + 100) (acc ++ (fetch offset).map mapIssue)
      (reqs ++ [offset]) hfull2 hlast2 (by omega)]
    rw [rangeMap_flatten_shift (fun i => (fetch (offset + 100 * i)).map mapIssue) (k + 1)]
    rw [rangeMap_shift (fun i => offset + 100 * i) (k + 1)]
    rw [List.map_congr_left (fun i _ => by rw [harith i] :
      ∀ i ∈ List.range (k + 1),
        (fetch (offset + 100 * (i + 1))).map mapIssue =
        (fetch (offset + 100 + 100 * i)).map mapIssue)]
    rw [List.map_congr_left (fun i _ => harith i :
      ∀ i ∈ List.range (k + 1),
        offset + 100 * (i + 1) = offset + 100 + 100 * i)]
    simp [List.append_assoc]

/-- C1: when the pages at offsets 0, 100, ..., 100k are full (100 items)
up to the first short page (page k, fewer than 100 items), getIssues
returns the concatenation of all fetched pages mapped to issue records in
order, and requests exactly the offsets 0, 100, ..., 100k — no request
follows the first short page. -/
theorem getIssues_concatOfPages (fetch : Nat → List RemoteIssue) (k fuel : Nat)
    (hfull : ∀ i, i < k → (fetch (100 * i)).length = 100)
    (hlast : (fetch (100 * k)).length < 100)
    (hfuel : k < fuel) :
    getIssues fetch fuel =
      some (((List.range (k + 1)).map
              (fun i => (fetch (100 * i)).map mapIssue)).flatten,
            (List.range (k + 1)).map (fun i => 100 * i)) := by
  have h := getIssuesAux_pages fetch k fuel 0 [] []
    (by simpa using hfull) (by simpa using hlast) hfuel
  simpa [getIssues] using h

set_option maxRecDepth 10000 in
/-- C1 witness: a remote with a full first page (100 items) and a short
second page (40 items); the result is the 140 mapped records and exactly
the two offsets 0 and 100 are requested. -/
theorem getIssues_concatOfPages_witness :
    (getIssues (fun off =>
        if off = 0 then List.replicate 100 ⟨1, "K-1", "s", none⟩
        else if off = 100 then List.replicate 40 ⟨2, "K-2", "s", some "d"⟩
        else []) 5 =
      some (((List.range 2).map
              (fun i => ((fun off =>
                if off = 0 then List.replicate 100 (⟨1, "K-1", "s", none⟩ : RemoteIssue)
                else if off = 100 then List.replicate 40 ⟨2, "K-2", "s", some "d"⟩
                else []) (100 * i)).map mapIssue)).flatten,
            (List.range 2).map (fun i => 100 * i))) ∧
    (getIssues (fun off =>
        if off = 0 then List.replicate 100 ⟨1, "K-1", "s", none⟩
        else if off = 100 then List.replicate 40 ⟨2, "K-2", "s", some "d"⟩
        else []) 5).map (fun r => (r.1.length, r.2)) = some (140, [0, 100]) :=
  ⟨getIssues_concatOfPages
      (fun off =>
        if off = 0 then List.replicate 100 ⟨1, "K-1", "s", none⟩
        else if off = 100 then List.replicate 40 ⟨2, "K-2", "s", some "d"⟩
        else []) 1 5
      (by decide) (by decide) (by decide),
    by decide⟩

/-- C7: when the remote returns zero items at offset 0, getIssues returns
the empty sequence and issues exactly one request, at offset 0. -/
theorem getIssues_emptyFirstPage (fetch : Nat → List RemoteIssue) (fuel : Nat)
    (h : (fetch 0).length = 0) (hfuel : 0 < fuel) :
    getIssues fetch fuel = some ([], [0]) := by
  obtain ⟨f, rfl⟩ : ∃ f, fuel = f + 1 := ⟨fuel - 1, by omega⟩
  have hnil : fetch 0 = [] := List.length_eq_zero.mp h
  simp [getIssues, getIssuesAux, hnil]

/-- C7 witness: a remote with no issues at all. -/
theorem getIssues_emptyFirstPage_witness :
    getIssues (fun _ => []) 1 = some ([], [0]) :=
  getIssues_emptyFirstPage (fun _ => []) 1 rfl (by decide)

theorem getIssuesAux_terminates (fetch : Nat → List RemoteIssue) :
    ∀ (k fuel offset : Nat) (acc : List BacklogIssue) (reqs : List Nat),
      (fetch (offset + 100 * k)).length < 100 →
      k < fuel →
      (getIssuesAux fetch fuel offset acc reqs).isSome := by
  intro k
  induction k with
  | zero =>
    intro fuel offset acc reqs hshort hfuel
    obtain ⟨f, rfl⟩ : ∃ f, fuel = f + 1 := ⟨fuel - 1, by omega⟩
    simp only [Nat.mul_zero, Nat.add_zero] at hshort
    by_cases h0 : (fetch offset).length = 0
    · simp [getIssuesAux, h0]
    · simp [getIssuesAux, h0, hshort]
  | succ k ih =>
    intro fuel offset acc reqs hshort hfuel
    obtain ⟨f, rfl⟩ : ∃ f, fuel = f + 1 := ⟨fuel - 1, by omega⟩
    by_cases h0 : (fetch offset).length = 0
    · simp [getIssuesAux, h0]
    · by_cases hlt : (fetch offset).length < 100
      · simp [getIssuesAux, h0, hlt]
      · simp only [getIssuesAux]
        rw [if_neg h0, if_neg hlt]
        apply ih f (offset + 100)
        · have : offset + 100 * (k + 1) = offset + 100 + 100 * k := by ring
          rwa [this] at hshort
        · omega

/-- C9: whenever some page (page k, counting from 0 at offset 100k) has
fewer than 100 items, the pagination loop terminates within k + 1
requests: any fuel bound above k suffices, so the loop never runs
forever. -/
theorem getIssues_terminates (fetch : Nat → List RemoteIssue) (k fuel : Nat)
    (hshort : (fetch (100 * k)).length < 100)
    (hfuel : k < fuel) :
    (getIssues fetch fuel).isSome := by
  have h := getIssuesAux_terminates fetch k fuel 0 [] [] (by simpa using hshort) hfuel
  simpa [getIssues] using h

/-- C9 witness: a remote whose every page has 40 items terminates at the
first page. -/
theorem getIssues_terminates_witness :
    (getIssues (fun _ => List.replicate 40 ⟨7, "K-7", "s", none⟩) 1).isSome :=
  getIssues_terminates (fun _ => List.replicate 40 ⟨7, "K-7", "s", none⟩) 0 1
    (by decide) (by decide)

/-! Field-defaulting lemmas. -/

theorem getIssuesAux_absentDesc (fetch : Nat → List RemoteIssue)
    (hf : ∀ off r, r ∈ fetch off → r.description = none) :
    ∀ (fuel offset : Nat) (acc : List BacklogIssue) (reqs : List Nat)
      (out : List BacklogIssue) (reqsOut : List Nat),
      (∀ x ∈ acc, x.description = "") →
      getIssuesAux fetch fuel offset acc reqs = some (out, reqsOut) →
      ∀ x ∈ out, x.description = "" := by
  intro fuel
  induction fuel with
  | zero =>
    intro offset acc reqs out reqsOut hacc h
    simp [getIssuesAux] at h
  | succ f ih =>
    intro offset acc reqs out reqsOut hacc h
    have hmapped : ∀ x ∈ (fetch offset).map mapIssue, x.description = "" := by
      intro x hx
      obtain ⟨r, hr, rfl⟩ := List.mem_map.mp hx
      simp [mapIssue, hf offset r hr]
    have hboth : ∀ x ∈ acc ++ (fetch offset).map mapIssue, x.description = "" := by
      intro x hx
      rcases List.mem_append.mp hx with hx | hx
      · exact hacc x hx
      · exact hmapped x hx
    simp only [getIssuesAux] at h
    by_cases h0 : (fetch offset).length = 0
    · rw [if_pos h0] at h
      simp only [Option.some.injEq, Prod.mk.injEq] at h
      intro x hx
      exact hacc x (h.1 ▸ hx)
    · rw [if_neg h0] at h
      by_cases hlt : (fetch offset).length < 100
      · rw [if_pos hlt] at h
        simp only [Option.some.injEq, Prod.mk.injEq] at h
        intro x hx
        exact hboth x (h.1 ▸ hx)
      · rw [if_neg hlt] at h
        exact ih (offset + 100) (acc ++ (fetch offset).map mapIssue)
          (reqs ++ [offset]) out reqsOut hboth h

theorem retryLoop_ok_from_call (apiCall : Nat → Except ApiError α) :
    ∀ (fuel attempt : Nat) (lastError : Option ApiError)
      (evts : List RetryEvent) (v : α) (evtsOut : List RetryEvent),
      retryLoop apiCall fuel attempt lastError evts = (Except.ok v, evtsOut) →
      ∃ n, apiCall n = Except.ok v := by
  intro fuel
  induction fuel with
  | zero =>
    intro attempt lastError evts v evtsOut h
    simp [retryLoop] at h
  | succ f ih =>
    intro attempt lastError evts v evtsOut h
    simp only [retryLoop] at h
    cases hc : apiCall attempt with
    | ok w =>
      rw [hc] at h
      simp only [Prod.mk.injEq, Except.ok.injEq] at h
      exact ⟨attempt, by rw [hc, h.1]⟩
    | error e =>
      rw [hc] at h
      by_cases hr : isRateLimitError e
      · simp only [hr, if_true] at h
        exact ih _ _ _ _ _ h
      · simp [hr] at h

/-- C8: records whose remote description/content field is absent come out
with that field equal to the empty string, for all four read operations:
getIssues, getIssue, getWikis and getWiki. -/
theorem absentFields_defaultToEmpty :
    (∀ (fetch : Nat → List RemoteIssue) (fuel : Nat)
        (out : List BacklogIssue) (reqs : List Nat),
      (∀ off r, r ∈ fetch off → r.description = none) →
      getIssues fetch fuel = some (out, reqs) →
      ∀ x ∈ out, x.description = "") ∧
    (∀ (call : Nat → Except ApiError RemoteIssue) (maxRetries : Nat)
        (i : BacklogIssue) (evts : List RetryEvent),
      (∀ n r, call n = Except.ok r → r.description = none) →
      getIssue call maxRetries = (Except.ok i, evts) →
      i.description = "") ∧
    (∀ (wikis : List RemoteWiki),
      (∀ w ∈ wikis, w.content = none) →
      ∀ x ∈ getWikis wikis, x.content = "") ∧
    (∀ (call : Nat → Except ApiError RemoteWiki) (maxRetries : Nat)
        (w : BacklogWiki) (evts : List RetryEvent),
      (∀ n r, call n = Except.ok r → r.content = none) →
      getWiki call maxRetries = (Except.ok w, evts) →
      w.content = "") := by
  refine ⟨?_, ?_, ?_, ?_⟩
  · intro fetch fuel out reqs hf h
    exact getIssuesAux_absentDesc fetch hf fuel 0 [] [] out reqs
      (by intro x hx; simp at hx) h
  · intro call maxRetries i evts hc h
    obtain ⟨n, hn⟩ := retryLoop_ok_from_call
      (fun n => (call n).map mapIssue) (maxRetries + 1) 0 none [] i evts h
    cases hcall : call n with
    | ok r =>
      rw [hcall] at hn
      simp only [Except.map, Except.ok.injEq] at hn
      rw [← hn]
      simp [mapIssue, hc n r hcall]
    | error e =>
      rw [hcall] at hn
      simp [Except.map] at hn
  · intro wikis hw x hx
    obtain ⟨r, hr, rfl⟩ := List.mem_map.mp hx
    simp [mapWiki, hw r hr]
  · intro call maxRetries w evts hc h
    obtain ⟨n, hn⟩ := retryLoop_ok_from_call
      (fun n => (call n).map mapWiki) (maxRetries + 1) 0 none [] w evts h
    cases hcall : call n with
    | ok r =>
      rw [hcall] at hn
      simp only [Except.map, Except.ok.injEq] at hn
      rw [← hn]
      simp [mapWiki, hc n r hcall]
    | error e =>
      rw [hcall] at hn
      simp [Except.map] at hn

/-- C8 witness: a description-less remote issue passed through getIssues
yields the empty-string description. -/
theorem absentFields_defaultToEmpty_witness :
    (mapIssue ⟨5, "K-5", "s", none⟩).description = "" :=
  absentFields_defaultToEmpty.1 (fun _ => [⟨5, "K-5", "s", none⟩]) 1
    [mapIssue ⟨5, "K-5", "s", none⟩] [0]
    (by intro off r hr
        simp only [List.mem_singleton] at hr
        subst hr
        rfl)
    rfl (mapIssue ⟨5, "K-5", "s", none⟩) (by simp)

end BacklogClient
